import Mathlib

/-!
Verification of the `read-temperature` sensor relay program (`src/main.rs`,
`src/error.rs`).  The Rust source is shallowly embedded: byte buffers are
`List Nat`, strings are `List Char`, and `f32` values are modelled by the
abstract type `F32` whose `finite` constructor carries the exact decimal
value `m * 10^e` denoted by the literal (binary rounding of `f32` is
abstracted away; none of the verified properties depend on it).
-/

namespace ReadTemperature

/-- Model of Rust `f32` values as they arise in this program: `finite m e`
is the exact decimal value `m * 10^e` denoted by a parsed literal (the
binary rounding of `f32` is abstracted away; the pair is kept as written, so
value equality is equality of the producing literal), plus the two
infinities and NaN. -/
inductive F32 where
  | finite (m : ℤ) (e : ℤ)
  | inf
  | negInf
  | nan
deriving DecidableEq, Repr

/-- `SensorReading` from `main.rs`: `{ temperature: f32, humidity: f32 }`. -/
structure SensorReading where
  temperature : F32
  humidity : F32
deriving DecidableEq, Repr

instance {ε α : Type} [DecidableEq ε] [DecidableEq α] : DecidableEq (Except ε α) :=
  fun a b =>
    match a, b with
    | Except.ok x, Except.ok y =>
      if h : x = y then isTrue (by rw [h]) else isFalse (by intro e; cases e; exact h rfl)
    | Except.error x, Except.error y =>
      if h : x = y then isTrue (by rw [h]) else isFalse (by intro e; cases e; exact h rfl)
    | Except.ok _, Except.error _ => isFalse (by intro e; cases e)
    | Except.error _, Except.ok _ => isFalse (by intro e; cases e)

/-- `SensorCommand` from `main.rs`: single variant `Measure`. -/
inductive SensorCommand where
  | Measure
deriving DecidableEq, Repr

/-- ASCII digit test, as used by Rust float parsing (`0`-`9` only). -/
def isAsciiDigit (c : Char) : Bool :=
  48 ≤ c.toNat && c.toNat ≤ 57

/-- Rust `char::is_whitespace`: the Unicode `White_Space` property. -/
def isRustWhitespace (c : Char) : Bool :=
  let n := c.toNat
  (9 ≤ n && n ≤ 13) || n = 32 || n = 133 || n = 160 || n = 5760 ||
  (8192 ≤ n && n ≤ 8202) || n = 8232 || n = 8233 || n = 8239 || n = 8287 ||
  n = 12288

/-- Rust `char::to_ascii_lowercase`, used by the case-insensitive match of
`inf`/`infinity`/`nan` in `f32::from_str`. -/
def asciiLower (c : Char) : Char :=
  if 65 ≤ c.toNat && c.toNat ≤ 90 then Char.ofNat (c.toNat + 32) else c

/-- Numeric value of a list of ASCII digit characters. -/
def digitsVal : List Char → Nat
  | [] => 0
  | c :: cs => (c.toNat - 48) * 10 ^ cs.length + digitsVal cs

/-- The finite `F32` denoted by a sign and the digit string read as
`digits * 10^e` (for `dd.ff` the digits are `ddff` and `e` starts at
`-|ff|`, shifted by any explicit exponent). -/
def mkFinite (neg : Bool) (digits : ℕ) (e : ℤ) : F32 :=
  F32.finite (if neg then -(digits : ℤ) else (digits : ℤ)) e

/-- Exponent part of Rust `f32::from_str`: `('e'|'E') Sign? Digit+`, already
past the `e`; must consume the rest of the token.  `fracLen` is the number of
fraction digits already folded into `digits`. -/
def parseExp (neg : Bool) (digits : ℕ) (fracLen : ℕ) (cs : List Char) : Option F32 :=
  let (eneg, cs1) : Bool × List Char :=
    match cs with
    | '+' :: r => (false, r)
    | '-' :: r => (true, r)
    | _ => (false, cs)
  let es := cs1.takeWhile isAsciiDigit
  let r := cs1.dropWhile isAsciiDigit
  if es = [] ∨ r ≠ [] then none
  else
    some (mkFinite neg digits
      ((if eneg then -(digitsVal es : ℤ) else (digitsVal es : ℤ)) - (fracLen : ℤ)))

/-- Number part of Rust `f32::from_str` (after the optional sign):
`Digit* '.'? Digit* Exp?` with at least one digit overall. -/
def parseNumber (neg : Bool) (cs : List Char) : Option F32 :=
  let ds := cs.takeWhile isAsciiDigit
  let r1 := cs.dropWhile isAsciiDigit
  let (fs, r2) : List Char × List Char :=
    match r1 with
    | '.' :: r => (r.takeWhile isAsciiDigit, r.dropWhile isAsciiDigit)
    | _ => ([], r1)
  if ds = [] ∧ fs = [] then none
  else
    match r2 with
    | [] => some (mkFinite neg (digitsVal (ds ++ fs)) (-(fs.length : ℤ)))
    | e :: r3 =>
      if e = 'e' ∨ e = 'E' then parseExp neg (digitsVal (ds ++ fs)) fs.length r3
      else none

/-- Rust `f32::from_str` on a token: optional sign, then case-insensitive
`inf`/`infinity`/`nan` or a decimal number.  Returns `none` exactly when Rust
returns `Err(ParseFloatError)`. -/
def f32FromStr (cs : List Char) : Option F32 :=
  let (neg, cs1) : Bool × List Char :=
    match cs with
    | '+' :: r => (false, r)
    | '-' :: r => (true, r)
    | _ => (false, cs)
  let lower := cs1.map asciiLower
  if lower = ['i', 'n', 'f'] ∨ lower = ['i', 'n', 'f', 'i', 'n', 'i', 't', 'y'] then
    some (if neg then F32.negInf else F32.inf)
  else if lower = ['n', 'a', 'n'] then
    some F32.nan
  else
    parseNumber neg cs1

/-- Worker for `splitWhitespace`: `acc` holds the reversed current token. -/
def splitWSAux : List Char → List Char → List (List Char)
  | [], acc => if acc = [] then [] else [acc.reverse]
  | c :: cs, acc =>
    if isRustWhitespace c then
      if acc = [] then splitWSAux cs [] else acc.reverse :: splitWSAux cs []
    else
      splitWSAux cs (c :: acc)

/-- Rust `str::split_whitespace`: the maximal runs of non-whitespace
characters, in order. -/
def splitWhitespace (cs : List Char) : List (List Char) :=
  splitWSAux cs []

/-- `parse_response` from `main.rs`: the first whitespace token is the
humidity, the second the temperature (`it.next()` twice on the
`split_whitespace` iterator); both must parse as `f32`, else `None`. -/
def parse_response (cs : List Char) : Option SensorReading :=
  match ((splitWhitespace cs).get? 0).bind f32FromStr,
      ((splitWhitespace cs).get? 1).bind f32FromStr with
  | some humidity, some temperature => some ⟨temperature, humidity⟩
  | _, _ => none

/-- UTF-8 validation/decoding, byte at a time.  The state is `none` at a
character boundary, or `some (pending, acc, lo, hi)` inside a multi-byte
sequence: `pending` continuation bytes still expected, partial code point
`acc`, the next byte constrained to `[lo, hi]`.  The first-byte dispatch and
the narrowed ranges after `E0` (`A0..BF`), `ED` (`80..9F`), `F0` (`90..BF`)
and `F4` (`80..8F`) are exactly the acceptance table of Rust
`str::from_utf8`: overlong forms, surrogates and code points above
`U+10FFFF` are rejected. -/
def utf8Run : Option (Nat × Nat × Nat × Nat) → List Nat → Option (List Char)
  | none, [] => some []
  | some _, [] => none
  | none, b :: bs =>
    if b < 128 then (utf8Run none bs).map (Char.ofNat b :: ·)
    else if b < 194 then none
    else if b < 224 then utf8Run (some (1, b - 192, 128, 191)) bs
    else if b < 240 then
      utf8Run (some (2, b - 224, if b = 224 then 160 else 128,
        if b = 237 then 159 else 191)) bs
    else if b < 245 then
      utf8Run (some (3, b - 240, if b = 240 then 144 else 128,
        if b = 244 then 143 else 191)) bs
    else none
  | some (pending, acc, lo, hi), b :: bs =>
    if lo ≤ b && b ≤ hi then
      if pending ≤ 1 then (utf8Run none bs).map (Char.ofNat (acc * 64 + (b - 128)) :: ·)
      else utf8Run (some (pending - 1, acc * 64 + (b - 128), 128, 191)) bs
    else none

/-- Rust `str::from_utf8` as a decoder: `some` of the character list when the
bytes are valid UTF-8, `none` otherwise. -/
def utf8Decode (l : List Nat) : Option (List Char) :=
  utf8Run none l

/-- The decode half of `SensorCodec` (`Decoder::decode` in `main.rs`): find the
first `\n`; if none, report no frame and keep the buffer; otherwise split off
the line (newline included), UTF-8-decode and parse it, returning the reading
or the `"Invalid string"` error together with the remaining buffer. -/
def decode (src : List Nat) : Except String (Option SensorReading) × List Nat :=
  match src.findIdx? (fun b => b = 10) with
  | some n =>
    let line := src.take (n + 1)
    let rest := src.drop (n + 1)
    match (utf8Decode line).bind parse_response with
    | some r => (Except.ok (some r), rest)
    | none => (Except.error "Invalid string", rest)
  | none => (Except.ok none, src)

/-- The encode half of `SensorCodec` (`Encoder::encode` in `main.rs`):
`Measure` appends the single byte `b'M'` to the destination buffer. -/
def encode (item : SensorCommand) (dst : List Nat) : List Nat :=
  match item with
  | SensorCommand.Measure => dst ++ [77]

/-- The error enum of `error.rs`; each I/O-flavoured variant carries the
message of the wrapped error. -/
inductive Error where
  | Io (msg : String)
  | Serial (msg : String)
  | Postgres (msg : String)
  | Timeout
deriving DecidableEq, Repr

/-- `Sensor::call` from `main.rs`, embedded over its effect results: the
outcome of the serial open, of sending the encoded command, and the first item
the framed stream yields (`none` when the stream ends before any frame).
Mirrors the `?` conversions of `error.rs` (serial open error to
`Error::Serial`, `io::Error` to `Error::Io`). -/
def Sensor.call (openErr : Option String) (sendErr : Option String)
    (first : Option (Except String SensorReading)) : Except Error SensorReading :=
  match openErr with
  | some e => Except.error (Error.Serial e)
  | none =>
    match sendErr with
    | some e => Except.error (Error.Io e)
    | none =>
      match first with
      | some (Except.ok reading) => Except.ok reading
      | some (Except.error e) => Except.error (Error.Io e)
      | none => Except.error (Error.Io "Read failed")

/-- Timestamps (`DateTime<Utc>`): seconds since epoch plus a nanosecond
subsecond component. -/
structure DateTimeModel where
  secs : ℤ
  nanos : ℕ
deriving DecidableEq, Repr

/-- Adding a nonnegative number of nanoseconds to a timestamp. -/
def addNanos (dt : DateTimeModel) (k : ℕ) : DateTimeModel :=
  ⟨dt.secs + ((dt.nanos + k) / 1000000000 : ℕ), (dt.nanos + k) % 1000000000⟩

/-- Chrono `round_subsecs(0)`: round the subsecond part to the nearest whole
second, half away (delta up ≤ delta down goes up); subtracting `delta_down`
never borrows since `delta_down ≤ nanos`. -/
def roundSubsecs0 (dt : DateTimeModel) : DateTimeModel :=
  let deltaDown := dt.nanos % 1000000000
  if deltaDown = 0 then dt
  else
    let deltaUp := 1000000000 - deltaDown
    if deltaUp ≤ deltaDown then addNanos dt deltaUp
    else ⟨dt.secs, dt.nanos - deltaDown⟩

/-- The `Reading` enum of `main.rs`. -/
inductive Reading where
  | Thermometer (time : DateTimeModel) (temperature : F32) (humidity : F32)
  | Co2Meter (time : DateTimeModel) (temperature : F32) (co2 : ℕ)
deriving DecidableEq, Repr

/-- The `time` field of either `Reading` variant. -/
def Reading.time : Reading → DateTimeModel
  | Reading.Thermometer t _ _ => t
  | Reading.Co2Meter t _ _ => t

/-- Outcome of one serial sampling cycle: the 6-second deadline elapsed, the
body failed with an `Error`, or a reading was decoded. -/
inductive CycleOutcome where
  | timedOut
  | failed (e : Error)
  | succeeded (r : SensorReading)
deriving DecidableEq, Repr

/-- The value of `time::timeout(6s, one).await` in `run`: the elapsed error
(whose `Display` prints `"deadline has elapsed"`) or the body's own result. -/
def timeoutResult : CycleOutcome → Except String (Except Error Unit)
  | CycleOutcome.timedOut => Except.error "deadline has elapsed"
  | CycleOutcome.failed e => Except.ok (Except.error e)
  | CycleOutcome.succeeded _ => Except.ok (Except.ok ())

/-- What one tick of the serial loop in `run` writes to stderr: the
`if let Err(e)` matches only the outer timeout error, so only an elapsed
deadline is printed. -/
def tickLog (c : CycleOutcome) : List String :=
  match timeoutResult c with
  | Except.error e => [e]
  | Except.ok _ => []

/-- The readings one tick of the serial loop in `run` sends on the channel:
exactly one `Thermometer` reading, timestamped `Utc::now().round_subsecs(0)`,
when the call succeeded; none otherwise. -/
def tickEmissions (now : DateTimeModel) : CycleOutcome → List Reading
  | CycleOutcome.succeeded r =>
    [Reading.Thermometer (roundSubsecs0 now) r.temperature r.humidity]
  | _ => []

/-- Whether the serial loop proceeds to the next tick: the loop body catches
every outcome, so it always does. -/
def tickContinues (_ : CycleOutcome) : Bool :=
  true

/-- The readings one tick of `co2_thread` sends: one `Co2Meter` reading,
timestamped `Utc::now().round_subsecs(0)`, when `sensor.read()` succeeded. -/
def co2TickEmissions (now : DateTimeModel) : Except String (F32 × ℕ) → List Reading
  | Except.ok (t, c) => [Reading.Co2Meter (roundSubsecs0 now) t c]
  | Except.error _ => []

/-- `f32` multiplication on the model (exact on the decimal pairs; the
special-value cases follow IEEE multiplication). -/
def mulF : F32 → F32 → F32
  | F32.finite m1 e1, F32.finite m2 e2 => F32.finite (m1 * m2) (e1 + e2)
  | F32.nan, _ => F32.nan
  | _, F32.nan => F32.nan
  | F32.inf, F32.finite m _ =>
    if m = 0 then F32.nan else if 0 < m then F32.inf else F32.negInf
  | F32.negInf, F32.finite m _ =>
    if m = 0 then F32.nan else if 0 < m then F32.negInf else F32.inf
  | F32.finite m _, F32.inf =>
    if m = 0 then F32.nan else if 0 < m then F32.inf else F32.negInf
  | F32.finite m _, F32.negInf =>
    if m = 0 then F32.nan else if 0 < m then F32.negInf else F32.inf
  | F32.inf, F32.inf => F32.inf
  | F32.inf, F32.negInf => F32.negInf
  | F32.negInf, F32.inf => F32.negInf
  | F32.negInf, F32.negInf => F32.inf

/-- Rust `f32::round` (round half away from zero) of the value `m * 10^e`,
as an integer.  Both division operands are nonnegative, where every integer
division convention agrees with the floor. -/
def decRound (m e : ℤ) : ℤ :=
  if 0 ≤ e then m * 10 ^ e.toNat
  else
    let d : ℤ := 10 ^ (-e).toNat
    if 0 ≤ m then (2 * m + d) / (2 * d)
    else -((2 * -m + d) / (2 * d))

/-- Truncation toward zero of the value `m * 10^e` (the first step of a Rust
float-to-integer `as` cast). -/
def decTrunc (m e : ℤ) : ℤ :=
  if 0 ≤ e then m * 10 ^ e.toNat
  else if 0 ≤ m then m / 10 ^ (-e).toNat
  else -(-m / 10 ^ (-e).toNat)

/-- `f32::round` lifted to the model. -/
def roundF : F32 → F32
  | F32.finite m e => F32.finite (decRound m e) 0
  | x => x

/-- Rust `as i16` on an `f32`: truncate toward zero, saturate to the `i16`
range, NaN to 0. -/
def f32AsI16 : F32 → ℤ
  | F32.finite m e => max (-32768) (min 32767 (decTrunc m e))
  | F32.inf => 32767
  | F32.negInf => -32768
  | F32.nan => 0

/-- Rust `as i16` on a `u16`: reinterpret the 16-bit pattern. -/
def u16AsI16 (n : ℕ) : ℤ :=
  if n % 65536 < 32768 then (n % 65536 : ℤ) else (n % 65536 : ℤ) - 65536

/-- The two numeric values `send_one` in `main.rs` binds into the SQL insert
for a reading: `Thermometer` stores `(temperature*100.0).round() as i16` and
`(humidity*100.0).round() as i16`; `Co2Meter` stores
`(temperature*100.0).round() as i16` and `co2 as i16` (the CO2 count is NOT
scaled). -/
def sendOneStored : Reading → ℤ × ℤ
  | Reading.Thermometer _ temperature humidity =>
    (f32AsI16 (roundF (mulF temperature (F32.finite 100 0))),
     f32AsI16 (roundF (mulF humidity (F32.finite 100 0))))
  | Reading.Co2Meter _ temperature co2 =>
    (f32AsI16 (roundF (mulF temperature (F32.finite 100 0))), u16AsI16 co2)

/-- UTF-8 encoding of a character list (inverse direction of `utf8Decode`,
used to build wire lines). -/
def utf8Encode : List Char → List Nat
  | [] => []
  | c :: cs =>
    let n := c.toNat
    (if n < 128 then [n]
     else if n < 2048 then [192 + n / 64, 128 + n % 64]
     else if n < 65536 then [224 + n / 4096, 128 + n / 64 % 64, 128 + n % 64]
     else [240 + n / 262144, 128 + n / 4096 % 64, 128 + n / 64 % 64, 128 + n % 64])
    ++ utf8Encode cs

/-- Finiteness of a modelled `f32` (Rust `f32::is_finite`). -/
def F32.isFinite : F32 → Bool
  | F32.finite _ _ => true
  | _ => false

lemma findIdx?_no_newline (src : List Nat) (h : ∀ b ∈ src, b ≠ 10) :
    src.findIdx? (fun b => b = 10) = none := by
  induction src with
  | nil => rfl
  | cons a l ih =>
    rw [List.findIdx?_cons]
    have ha : a ≠ 10 := h a (List.mem_cons_self a l)
    simp only [decide_eq_true_eq]
    rw [if_neg ha, List.findIdx?_succ, ih fun b hb => h b (List.mem_cons_of_mem a hb)]
    rfl

lemma findIdx?_newline_append (line rest : List Nat) (h : (10 : Nat) ∉ line) :
    (line ++ 10 :: rest).findIdx? (fun b => b = 10) = some line.length := by
  induction line with
  | nil => simp [List.findIdx?_cons]
  | cons a l ih =>
    have ha : a ≠ 10 := fun e => h (by simp [e])
    rw [List.cons_append, List.findIdx?_cons]
    simp only [decide_eq_true_eq]
    rw [if_neg ha, List.findIdx?_succ, ih fun hm => h (List.mem_cons_of_mem a hm)]
    rfl

lemma decode_line_eq (line rest : List Nat) (h : (10 : Nat) ∉ line) :
    decode (line ++ 10 :: rest) =
      (match (utf8Decode (line ++ [10])).bind parse_response with
       | some r => (Except.ok (some r), rest)
       | none => (Except.error "Invalid string", rest)) := by
  have htake : (line ++ 10 :: rest).take (line.length + 1) = line ++ [10] := by
    have : line ++ 10 :: rest = (line ++ [10]) ++ rest := by simp
    rw [this]
    have hlen : (line ++ [10]).length = line.length + 1 := by simp
    rw [← hlen, List.take_left]
  have hdrop : (line ++ 10 :: rest).drop (line.length + 1) = rest := by
    have : line ++ 10 :: rest = (line ++ [10]) ++ rest := by simp
    rw [this]
    have hlen : (line ++ [10]).length = line.length + 1 := by simp
    rw [← hlen, List.drop_left]
  unfold decode
  rw [findIdx?_newline_append line rest h]
  dsimp only
  rw [htake, hdrop]

lemma splitWSAux_token (tok : List Char) (h : ∀ c ∈ tok, isRustWhitespace c = false) :
    ∀ (rest acc : List Char),
      splitWSAux (tok ++ rest) acc = splitWSAux rest (tok.reverse ++ acc) := by
  induction tok with
  | nil => intro rest acc; rfl
  | cons c cs ih =>
    intro rest acc
    have hc : isRustWhitespace c = false := h c (List.mem_cons_self c cs)
    rw [List.cons_append]
    show (if isRustWhitespace c = true then _ else splitWSAux (cs ++ rest) (c :: acc)) = _
    rw [if_neg (by simp [hc])]
    rw [ih (fun d hd => h d (List.mem_cons_of_mem c hd)) rest (c :: acc)]
    simp

lemma splitWSAux_ws (w : List Char) (h : ∀ c ∈ w, isRustWhitespace c = true) :
    ∀ rest : List Char, splitWSAux (w ++ rest) [] = splitWSAux rest [] := by
  induction w with
  | nil => intro rest; rfl
  | cons c cs ih =>
    intro rest
    have hc : isRustWhitespace c = true := h c (List.mem_cons_self c cs)
    rw [List.cons_append]
    show (if isRustWhitespace c = true then
        (if ([] : List Char) = [] then splitWSAux (cs ++ rest) [] else _) else _) = _
    rw [if_pos hc, if_pos rfl, ih fun d hd => h d (List.mem_cons_of_mem c hd)]

lemma splitWSAux_ws_cut (c : Char) (rest acc : List Char) (hc : isRustWhitespace c = true)
    (hacc : acc ≠ []) :
    splitWSAux (c :: rest) acc = acc.reverse :: splitWSAux rest [] := by
  show (if isRustWhitespace c = true then
      (if acc = [] then _ else acc.reverse :: splitWSAux rest []) else _) = _
  rw [if_pos hc, if_neg hacc]

/-- Tokenization of a line of the shape
whitespace, first token, whitespace, second token, then either nothing or a
whitespace-led remainder: the first two tokens are recovered. -/
lemma splitWhitespace_two_tokens (w0 w1 tail hs ts : List Char)
    (hw0 : ∀ c ∈ w0, isRustWhitespace c = true)
    (hw1 : ∀ c ∈ w1, isRustWhitespace c = true) (hw1ne : w1 ≠ [])
    (htail : tail = [] ∨ ∃ c tail2, tail = c :: tail2 ∧ isRustWhitespace c = true)
    (hhs : ∀ c ∈ hs, isRustWhitespace c = false) (hhsne : hs ≠ [])
    (hts : ∀ c ∈ ts, isRustWhitespace c = false) (htsne : ts ≠ []) :
    ∃ more, splitWhitespace (w0 ++ (hs ++ (w1 ++ (ts ++ tail)))) = hs :: ts :: more := by
  unfold splitWhitespace
  rw [splitWSAux_ws w0 hw0, splitWSAux_token hs hhs, List.append_nil]
  obtain ⟨c1, w1', rfl⟩ : ∃ c1 w1', w1 = c1 :: w1' := by
    cases w1 with
    | nil => exact absurd rfl hw1ne
    | cons a l => exact ⟨a, l, rfl⟩
  rw [List.cons_append,
    splitWSAux_ws_cut c1 _ hs.reverse (hw1 c1 (List.mem_cons_self c1 w1'))
      (by simpa using hhsne),
    List.reverse_reverse]
  rw [splitWSAux_ws w1' (fun d hd => hw1 d (List.mem_cons_of_mem c1 hd))]
  rw [splitWSAux_token ts hts, List.append_nil]
  rcases htail with rfl | ⟨c2, tail2, rfl, hc2⟩
  · refine ⟨[], ?_⟩
    show _ :: (if ts.reverse = [] then _ else [ts.reverse.reverse]) = _
    rw [if_neg (by simpa using htsne), List.reverse_reverse]
  · rw [splitWSAux_ws_cut c2 tail2 ts.reverse hc2 (by simpa using htsne),
      List.reverse_reverse]
    exact ⟨splitWSAux tail2 [], rfl⟩

lemma utf8Decode_ascii (cs : List Char) (h : ∀ c ∈ cs, c.toNat < 128) :
    utf8Decode (cs.map Char.toNat) = some cs := by
  induction cs with
  | nil => rfl
  | cons c cs ih =>
    have hc : c.toNat < 128 := h c (List.mem_cons_self c cs)
    have ih' := ih fun d hd => h d (List.mem_cons_of_mem c hd)
    unfold utf8Decode at ih' ⊢
    rw [List.map_cons]
    simp only [utf8Run]
    rw [if_pos hc, ih']
    simp [Char.ofNat_toNat]

lemma roundSubsecs0_nanos (dt : DateTimeModel) (h : dt.nanos < 1000000000) :
    (roundSubsecs0 dt).nanos = 0 := by
  unfold roundSubsecs0 addNanos
  rcases Nat.eq_zero_or_pos dt.nanos with h0 | hpos
  · simp [h0, Nat.mod_eq_of_lt h]
  · have hmod : dt.nanos % 1000000000 = dt.nanos := Nat.mod_eq_of_lt h
    rw [hmod]
    rw [if_neg (by omega)]
    by_cases hcmp : 1000000000 - dt.nanos ≤ dt.nanos
    · rw [if_pos hcmp]
      show (dt.nanos + (1000000000 - dt.nanos)) % 1000000000 = 0
      omega
    · rw [if_neg hcmp]
      show dt.nanos - dt.nanos = 0
      omega

lemma decode_line_some (line rest : List Nat) (r : SensorReading) (h : (10 : Nat) ∉ line)
    (hp : (utf8Decode (line ++ [10])).bind parse_response = some r) :
    decode (line ++ 10 :: rest) = (Except.ok (some r), rest) := by
  rw [decode_line_eq line rest h, hp]

lemma decode_line_none (line rest : List Nat) (h : (10 : Nat) ∉ line)
    (hp : (utf8Decode (line ++ [10])).bind parse_response = none) :
    decode (line ++ 10 :: rest) = (Except.error "Invalid string", rest) := by
  rw [decode_line_eq line rest h, hp]

lemma parse_response_tokens (cs hs ts : List Char) (more : List (List Char))
    (htok : splitWhitespace cs = hs :: ts :: more) (hv tv : F32)
    (hh : f32FromStr hs = some hv) (ht : f32FromStr ts = some tv) :
    parse_response cs = some ⟨tv, hv⟩ := by
  unfold parse_response
  rw [htok]
  simp [hh, ht]

lemma f32FromStr_nil : f32FromStr [] = none := rfl

lemma f32FromStr_ne_nil {cs : List Char} {v : F32} (h : f32FromStr cs = some v) :
    cs ≠ [] := by
  intro e
  rw [e, f32FromStr_nil] at h
  exact Option.noConfusion h

lemma ws_of_toNat10 (c : Char) (h : c.toNat = 10) : isRustWhitespace c = true := by
  simp [isRustWhitespace, h]

lemma utf8Encode_ascii (cs : List Char) (h : ∀ c ∈ cs, c.toNat < 128) :
    utf8Encode cs = cs.map Char.toNat := by
  induction cs with
  | nil => rfl
  | cons c cs ih =>
    have hc : c.toNat < 128 := h c (List.mem_cons_self c cs)
    show (if c.toNat < 128 then [c.toNat]
      else if c.toNat < 2048 then _ else if c.toNat < 65536 then _ else _) ++ _ = _
    rw [if_pos hc, ih fun d hd => h d (List.mem_cons_of_mem c hd)]
    rfl

/-- C1: for every input buffer that contains no newline byte, one decode call
returns the "no complete frame yet" outcome (`Ok(None)`: no reading, no
error) and leaves the buffer byte-for-byte unchanged. -/
theorem decode_no_newline_incomplete (src : List Nat) (h : ∀ b ∈ src, b ≠ 10) :
    decode src = (Except.ok none, src) := by
  unfold decode
  rw [findIdx?_no_newline src h]

theorem decode_no_newline_incomplete_witness :
    decode [52, 53, 46, 50] = (Except.ok none, [52, 53, 46, 50]) :=
  decode_no_newline_incomplete [52, 53, 46, 50] (by decide)

/-- C2: for every buffer whose first line is two whitespace-separated numeric
tokens followed by a newline, decode returns a `SensorReading` whose humidity
is the first token's value and whose temperature is the second token's value,
consuming exactly that line. -/
theorem decode_two_token_line (line rest : List Nat) (chars hs ts : List Char)
    (hv tv : F32) (h10 : (10 : Nat) ∉ line)
    (hutf : utf8Decode (line ++ [10]) = some chars)
    (htok : splitWhitespace chars = [hs, ts])
    (hh : f32FromStr hs = some hv) (ht : f32FromStr ts = some tv) :
    decode (line ++ 10 :: rest) = (Except.ok (some ⟨tv, hv⟩), rest) := by
  apply decode_line_some line rest _ h10
  rw [hutf]
  exact parse_response_tokens chars hs ts [] htok hv tv hh ht

theorem decode_two_token_line_witness :
    decode [52, 53, 46, 50, 32, 50, 49, 46, 55, 10] =
      (Except.ok (some ⟨F32.finite 217 (-1), F32.finite 452 (-1)⟩), []) :=
  decode_two_token_line [52, 53, 46, 50, 32, 50, 49, 46, 55] []
    ['4', '5', '.', '2', ' ', '2', '1', '.', '7', '\n']
    ['4', '5', '.', '2'] ['2', '1', '.', '7']
    (F32.finite 452 (-1)) (F32.finite 217 (-1))
    (by decide) (by decide) (by decide) (by decide) (by decide)

/-- C3: for every buffer containing a newline whose first line does not parse
(missing token, invalid UTF-8, or an unparsable token), decode returns the
`"Invalid string"` decode error and still removes that entire line, newline
included, leaving the bytes after it intact. -/
theorem decode_malformed_line_consumed (line rest : List Nat) (h10 : (10 : Nat) ∉ line)
    (hbad : (utf8Decode (line ++ [10])).bind parse_response = none) :
    decode (line ++ 10 :: rest) = (Except.error "Invalid string", rest) :=
  decode_line_none line rest h10 hbad

theorem decode_malformed_line_consumed_witness :
    decode [110, 111, 116, 95, 97, 95, 110, 117, 109, 98, 101, 114, 32, 50, 49, 46, 55,
        10, 52, 53, 46, 50, 32, 50, 49, 46, 55, 10] =
      (Except.error "Invalid string", [52, 53, 46, 50, 32, 50, 49, 46, 55, 10]) ∧
    decode [52, 53, 46, 50, 32, 50, 49, 46, 55, 10] =
      (Except.ok (some ⟨F32.finite 217 (-1), F32.finite 452 (-1)⟩), []) :=
  ⟨decode_malformed_line_consumed
      [110, 111, 116, 95, 97, 95, 110, 117, 109, 98, 101, 114, 32, 50, 49, 46, 55]
      [52, 53, 46, 50, 32, 50, 49, 46, 55, 10] (by decide) (by decide),
    by decide⟩

/-- C4 counterexample: the token `inf` parses as a non-finite `f32`, yet
decode returns a reading (humidity `inf`) for the line `"inf 21.7\n"` instead
of a decode error, so "both tokens must parse as finite 32-bit floats" is not
what the code checks. -/
theorem decode_accepts_nonfinite :
    f32FromStr ['i', 'n', 'f'] = some F32.inf ∧
    F32.isFinite F32.inf = false ∧
    decode [105, 110, 102, 32, 50, 49, 46, 55, 10] =
      (Except.ok (some ⟨F32.finite 217 (-1), F32.inf⟩), []) :=
  ⟨by decide, rfl, by decide⟩

/-- C4 amended: decode returns a `SensorReading` precisely when the first two
whitespace-separated tokens of the consumed line both parse as `f32` values
(finite or not: `inf`/`infinity`/`nan` are accepted); if the first or second
token is missing or fails to parse, decode returns the `"Invalid string"`
decode error instead of a reading. -/
theorem decode_f32_parse_boundary (line rest : List Nat) (chars : List Char)
    (h10 : (10 : Nat) ∉ line) (hutf : utf8Decode (line ++ [10]) = some chars) :
    (∀ hv tv, ((splitWhitespace chars).get? 0).bind f32FromStr = some hv →
        ((splitWhitespace chars).get? 1).bind f32FromStr = some tv →
        decode (line ++ 10 :: rest) = (Except.ok (some ⟨tv, hv⟩), rest)) ∧
    ((((splitWhitespace chars).get? 0).bind f32FromStr = none ∨
        ((splitWhitespace chars).get? 1).bind f32FromStr = none) →
      decode (line ++ 10 :: rest) = (Except.error "Invalid string", rest)) := by
  constructor
  · intro hv tv h0 h1
    apply decode_line_some line rest _ h10
    rw [hutf]
    show parse_response chars = _
    unfold parse_response
    rw [h0, h1]
  · intro hbad
    apply decode_line_none line rest h10
    rw [hutf]
    show parse_response chars = none
    unfold parse_response
    rcases hbad with h | h
    · rw [h]
    · rw [h]
      cases ((splitWhitespace chars).get? 0).bind f32FromStr <;> rfl

theorem decode_f32_parse_boundary_witness :
    decode [110, 97, 110, 32, 120, 10] = (Except.error "Invalid string", []) :=
  (decode_f32_parse_boundary [110, 97, 110, 32, 120] [] ['n', 'a', 'n', ' ', 'x', '\n']
      (by decide) (by decide)).2 (Or.inr (by decide))

/-- C10: decode tokenizes the consumed line on arbitrary Unicode whitespace
and ignores everything after the second token: any line made of optional
leading whitespace, a first token, whitespace, a second token, and an
optional whitespace-led remainder decodes to the reading built from the two
tokens, whenever both parse as `f32`. -/
theorem decode_unicode_whitespace_tokens (line rest : List Nat)
    (w0 w1 tail hs ts : List Char) (hv tv : F32) (h10 : (10 : Nat) ∉ line)
    (hutf : utf8Decode (line ++ [10]) = some (w0 ++ (hs ++ (w1 ++ (ts ++ tail)))))
    (hw0 : ∀ c ∈ w0, isRustWhitespace c = true)
    (hw1 : ∀ c ∈ w1, isRustWhitespace c = true) (hw1ne : w1 ≠ [])
    (htail : tail = [] ∨ ∃ c tail2, tail = c :: tail2 ∧ isRustWhitespace c = true)
    (hhs : ∀ c ∈ hs, isRustWhitespace c = false)
    (hts : ∀ c ∈ ts, isRustWhitespace c = false)
    (hh : f32FromStr hs = some hv) (ht : f32FromStr ts = some tv) :
    decode (line ++ 10 :: rest) = (Except.ok (some ⟨tv, hv⟩), rest) := by
  obtain ⟨more, hmore⟩ := splitWhitespace_two_tokens w0 w1 tail hs ts hw0 hw1 hw1ne htail
    hhs (f32FromStr_ne_nil hh) hts (f32FromStr_ne_nil ht)
  apply decode_line_some line rest _ h10
  rw [hutf]
  exact parse_response_tokens _ hs ts more hmore hv tv hh ht

theorem decode_unicode_whitespace_tokens_witness :
    decode [9, 52, 53, 227, 128, 128, 50, 49, 32, 120, 10] =
      (Except.ok (some ⟨F32.finite 21 0, F32.finite 45 0⟩), []) :=
  decode_unicode_whitespace_tokens [9, 52, 53, 227, 128, 128, 50, 49, 32, 120] []
    ['\t'] [Char.ofNat 12288] [' ', 'x', '\n'] ['4', '5'] ['2', '1']
    (F32.finite 45 0) (F32.finite 21 0)
    (by decide) (by decide) (by decide) (by decide) (by decide)
    (Or.inr ⟨' ', ['x', '\n'], rfl, by decide⟩)
    (by decide) (by decide) (by decide) (by decide)

/-- C5 (evaluation at the failing input): when the cycle body fails inside
the 6-second window — e.g. the serial open fails — the `if let Err(e)` in
`run` matches only the outer timeout result, so nothing is written to the
diagnostic stream, even though the cycle emits no reading and the loop
continues; only an elapsed deadline is printed. -/
theorem run_cycle_error_not_logged :
    tickLog (CycleOutcome.failed (Error.Serial "No such file or directory")) = [] ∧
    tickEmissions ⟨0, 0⟩ (CycleOutcome.failed (Error.Serial "No such file or directory")) = [] ∧
    tickContinues (CycleOutcome.failed (Error.Serial "No such file or directory")) = true ∧
    tickLog CycleOutcome.timedOut = ["deadline has elapsed"] :=
  ⟨rfl, rfl, rfl, rfl⟩

/-- C6 counterexample: a `Co2Meter` reading's CO2 count is bound into the
insert as `co2 as i16` — the raw count — not as `round(value*100)`: for
`co2 = 500` the stored value is `500`, while `round(500*100)` is `50000`. -/
theorem co2_stored_unscaled :
    sendOneStored (Reading.Co2Meter ⟨0, 0⟩ (F32.finite 20 0) 500) = (2000, 500) ∧
    decRound (500 * 100) 0 = 50000 ∧ (500 : ℤ) ≠ 50000 :=
  ⟨by decide, by decide, by decide⟩

/-- C6 amended: `Thermometer` temperature and humidity, and `Co2Meter`
temperature, are stored as `round(value*100)` (whenever that fits in `i16`);
the `Co2Meter` CO2 count is stored as its raw integer value (for counts below
`2^15`), not scaled by 100. -/
theorem sendOne_stored_values (t : DateTimeModel) (m1 e1 m2 e2 : ℤ) (c : ℕ)
    (h1lo : -32768 ≤ decRound (m1 * 100) e1) (h1hi : decRound (m1 * 100) e1 ≤ 32767)
    (h2lo : -32768 ≤ decRound (m2 * 100) e2) (h2hi : decRound (m2 * 100) e2 ≤ 32767)
    (hc : c < 32768) :
    sendOneStored (Reading.Thermometer t (F32.finite m1 e1) (F32.finite m2 e2)) =
      (decRound (m1 * 100) e1, decRound (m2 * 100) e2) ∧
    sendOneStored (Reading.Co2Meter t (F32.finite m1 e1) c) =
      (decRound (m1 * 100) e1, (c : ℤ)) := by
  have hm : ∀ m e : ℤ, mulF (F32.finite m e) (F32.finite 100 0) = F32.finite (m * 100) e := by
    intro m e
    show F32.finite (m * 100) (e + 0) = F32.finite (m * 100) e
    rw [add_zero]
  have key : ∀ M E : ℤ, -32768 ≤ decRound M E → decRound M E ≤ 32767 →
      f32AsI16 (roundF (F32.finite M E)) = decRound M E := by
    intro M E hlo hhi
    show max (-32768) (min 32767 (decTrunc (decRound M E) 0)) = decRound M E
    have htr : decTrunc (decRound M E) 0 = decRound M E := by
      show (if (0 : ℤ) ≤ 0 then decRound M E * 10 ^ (0 : ℤ).toNat else _) = decRound M E
      rw [if_pos le_rfl]
      simp
    rw [htr]
    omega
  have hco : u16AsI16 c = (c : ℤ) := by
    have hmod : c % 65536 = c := Nat.mod_eq_of_lt (by omega)
    unfold u16AsI16
    rw [hmod, if_pos hc]
    omega
  constructor
  · show (f32AsI16 (roundF (mulF (F32.finite m1 e1) (F32.finite 100 0))),
        f32AsI16 (roundF (mulF (F32.finite m2 e2) (F32.finite 100 0)))) = _
    rw [hm, hm, key _ _ h1lo h1hi, key _ _ h2lo h2hi]
  · show (f32AsI16 (roundF (mulF (F32.finite m1 e1) (F32.finite 100 0))), u16AsI16 c) = _
    rw [hm, key _ _ h1lo h1hi, hco]

theorem sendOne_stored_values_witness :
    sendOneStored (Reading.Thermometer ⟨0, 0⟩ (F32.finite 217 (-1)) (F32.finite 452 (-1))) =
      (2170, 4520) ∧
    sendOneStored (Reading.Co2Meter ⟨0, 0⟩ (F32.finite 217 (-1)) 600) = (2170, 600) := by
  have h := sendOne_stored_values ⟨0, 0⟩ 217 (-1) 452 (-1) 600
    (by decide) (by decide) (by decide) (by decide) (by decide)
  exact ⟨h.1.trans (by decide), h.2.trans (by decide)⟩

/-- C8: when the framed serial stream ends before yielding any item,
`Sensor::call` fails with the `"Read failed"` I/O error, which is a different
error value from the codec's `"Invalid string"` decode error (surfaced when
the stream's first item is a decode failure). -/
theorem call_read_failed_distinct :
    Sensor.call none none none = Except.error (Error.Io "Read failed") ∧
    Sensor.call none none (some (Except.error "Invalid string")) =
      Except.error (Error.Io "Invalid string") ∧
    Error.Io "Read failed" ≠ Error.Io "Invalid string" :=
  ⟨rfl, rfl, by decide⟩

/-- C9: every reading either poller emits carries a capture timestamp whose
subsecond component is zero, since both tag with
`Utc::now().round_subsecs(0)`. -/
theorem readings_whole_second (now : DateTimeModel) (h : now.nanos < 1000000000)
    (oc : CycleOutcome) (oc2 : Except String (F32 × ℕ)) (r : Reading)
    (hr : r ∈ tickEmissions now oc ∨ r ∈ co2TickEmissions now oc2) :
    (Reading.time r).nanos = 0 := by
  rcases hr with hr | hr
  · cases oc with
    | succeeded s =>
      simp only [tickEmissions, List.mem_singleton] at hr
      subst hr
      exact roundSubsecs0_nanos now h
    | timedOut => simp [tickEmissions] at hr
    | failed e => simp [tickEmissions] at hr
  · cases oc2 with
    | ok p =>
      obtain ⟨tmp, cnt⟩ := p
      simp only [co2TickEmissions, List.mem_singleton] at hr
      subst hr
      exact roundSubsecs0_nanos now h
    | error e => simp [co2TickEmissions] at hr

theorem readings_whole_second_witness :
    (Reading.time (Reading.Thermometer ⟨100, 0⟩ (F32.finite 1 0) (F32.finite 2 0))).nanos = 0 :=
  readings_whole_second ⟨100, 123456789⟩ (by decide)
    (CycleOutcome.succeeded ⟨F32.finite 1 0, F32.finite 2 0⟩) (Except.error "e")
    (Reading.Thermometer ⟨100, 0⟩ (F32.finite 1 0) (F32.finite 2 0))
    (Or.inl (by decide))

/-- C7: round-trip — encoding `Measure` emits exactly the byte `M`, and
decoding the well-formed wire response line `"<hum> <temp>\n"` built from two
finite values yields the same `SensorReading` as constructing
`SensorReading { temperature, humidity }` directly from those values. -/
theorem measure_roundtrip (hs ts : List Char) (mh eh mt et : ℤ)
    (hh : f32FromStr hs = some (F32.finite mh eh))
    (ht : f32FromStr ts = some (F32.finite mt et))
    (hhs : ∀ c ∈ hs, c.toNat < 128 ∧ isRustWhitespace c = false)
    (hts : ∀ c ∈ ts, c.toNat < 128 ∧ isRustWhitespace c = false) :
    encode SensorCommand.Measure [] = [77] ∧
    decode (utf8Encode (hs ++ (' ' :: (ts ++ ['\n'])))) =
      (Except.ok (some (SensorReading.mk (F32.finite mt et) (F32.finite mh eh))), []) := by
  refine ⟨rfl, ?_⟩
  have hascii : ∀ c ∈ hs ++ (' ' :: (ts ++ ['\n'])), c.toNat < 128 := by
    intro c hc
    rcases List.mem_append.1 hc with h | h
    · exact (hhs c h).1
    · rcases List.mem_cons.1 h with rfl | h
      · decide
      · rcases List.mem_append.1 h with h | h
        · exact (hts c h).1
        · rw [List.mem_singleton.1 h]
          decide
  rw [utf8Encode_ascii _ hascii]
  have hshape : (hs ++ (' ' :: (ts ++ ['\n']))).map Char.toNat =
      (hs.map Char.toNat ++ 32 :: ts.map Char.toNat) ++ 10 :: ([] : List Nat) := by
    simp
  rw [hshape]
  apply decode_line_some
  · intro hmem
    rcases List.mem_append.1 hmem with h | h
    · obtain ⟨c, hc, hc10⟩ := List.mem_map.1 h
      exact Bool.noConfusion ((hhs c hc).2.symm.trans (ws_of_toNat10 c hc10))
    · rcases List.mem_cons.1 h with h32 | h
      · exact absurd h32 (by decide)
      · obtain ⟨c, hc, hc10⟩ := List.mem_map.1 h
        exact Bool.noConfusion ((hts c hc).2.symm.trans (ws_of_toNat10 c hc10))
  · have hback : (hs.map Char.toNat ++ 32 :: ts.map Char.toNat) ++ [10] =
        (hs ++ (' ' :: (ts ++ ['\n']))).map Char.toNat := by
      simp
    rw [hback, utf8Decode_ascii _ hascii]
    obtain ⟨more, hmore⟩ := splitWhitespace_two_tokens [] [' '] ['\n'] hs ts
      (by intro c hc; exact absurd hc (List.not_mem_nil c))
      (by intro c hc; rw [List.mem_singleton.1 hc]; decide) (by decide)
      (Or.inr ⟨'\n', [], rfl, by decide⟩)
      (fun c hc => (hhs c hc).2) (f32FromStr_ne_nil hh)
      (fun c hc => (hts c hc).2) (f32FromStr_ne_nil ht)
    show parse_response (hs ++ (' ' :: (ts ++ ['\n']))) = _
    exact parse_response_tokens _ hs ts more hmore (F32.finite mh eh) (F32.finite mt et) hh ht

theorem measure_roundtrip_witness :
    encode SensorCommand.Measure [] = [77] ∧
    decode (utf8Encode (['4', '5', '.', '2'] ++ (' ' :: (['2', '1', '.', '7'] ++ ['\n'])))) =
      (Except.ok (some (SensorReading.mk (F32.finite 217 (-1)) (F32.finite 452 (-1)))), []) :=
  measure_roundtrip ['4', '5', '.', '2'] ['2', '1', '.', '7'] 452 (-1) 217 (-1)
    (by decide) (by decide) (by decide) (by decide)

end ReadTemperature
